import Mathlib

/-!
Verification of the netcdf3 NetCDF-3 codec specification against its source.

The development shallowly embeds the repository's `src/data_set/dimension.rs`
(dimensions, their constructors and accessors) and, for the parts of the
crate whose source is not available (the name validator of
`crate::name_string`, the `DataSet` mutators and the header codec / layout
planner), models them from the specification document; each such definition
carries a doc comment starting with `Modelled from the spec:`.

Rust strings are represented by their UTF-8 byte sequences (`List Nat`,
each element a byte value), `usize` by `Nat`, and `RefCell` cells by their
contents (the derived `PartialEq` on `RefCell` compares contents).
-/

namespace Netcdf3

/-! ### Byte-stream primitives -/

/-- Big-endian encoding of `n` on exactly `w` bytes (the low `8 * w` bits). -/
def beBytes : Nat → Nat → List Nat
  | 0, _ => []
  | w + 1, n => beBytes w (n / 256) ++ [n % 256]

/-- Big-endian value of a byte list (most significant byte first). -/
def beVal : List Nat → Nat
  | [] => 0
  | b :: bs => b * 256 ^ bs.length + beVal bs

/-- Read exactly `w` bytes from the front of the stream. -/
def takeBytes (w : Nat) (bs : List Nat) : Option (List Nat × List Nat) :=
  if w ≤ bs.length then some (bs.take w, bs.drop w) else none

/-- Read a 4-byte big-endian unsigned value. -/
def readU32 (bs : List Nat) : Option (Nat × List Nat) :=
  match takeBytes 4 bs with
  | none => none
  | some (c, r) => some (beVal c, r)

/-- Number of zero bytes needed after a block of `n` bytes to reach a
multiple of 4 (§4.2 of the spec: the uniform 4-byte alignment rule). -/
def padLen (n : Nat) : Nat := (4 - n % 4) % 4

/-- Append the zero padding of the 4-byte alignment rule. -/
def padTo4 (bs : List Nat) : List Nat := bs ++ List.replicate (padLen bs.length) 0

/-- Round a byte count up to a multiple of 4. -/
def roundUp4 (n : Nat) : Nat := n + padLen n

/-! ### Name validator (`crate::name_string::is_valid_name`) -/

/-- Byte of an ASCII letter. -/
def isAsciiAlphaByte (b : Nat) : Bool :=
  (decide (0x41 ≤ b) && decide (b ≤ 0x5A)) || (decide (0x61 ≤ b) && decide (b ≤ 0x7A))

/-- Byte of an ASCII decimal digit. -/
def isAsciiDigitByte (b : Nat) : Bool := decide (0x30 ≤ b) && decide (b ≤ 0x39)

/-- Modelled from the spec (§4.1): an acceptable first byte of a name —
`ASCII letter, underscore, or any byte ≥ 0x80`. -/
def isNameFirstByte (b : Nat) : Bool :=
  isAsciiAlphaByte b || decide (b = 0x5F) || decide (0x80 ≤ b)

/-- Modelled from the spec (§4.1): an acceptable subsequent byte of a name —
ASCII alphanumeric, `_`, `.`, `+`, `-`, `@`, or any byte ≥ 0x80. -/
def isNameRestByte (b : Nat) : Bool :=
  isAsciiAlphaByte b || isAsciiDigitByte b ||
  decide (b = 0x5F) || decide (b = 0x2E) || decide (b = 0x2B) ||
  decide (b = 0x2D) || decide (b = 0x40) || decide (0x80 ≤ b)

/-- UTF-8 continuation byte. -/
def isUtf8Cont (b : Nat) : Bool := decide (0x80 ≤ b) && decide (b ≤ 0xBF)

/-- Modelled from the spec (§4.1): `the string is valid UTF-8` — standard
UTF-8 well-formedness of a byte sequence (RFC 3629 table). -/
def isValidUtf8 : List Nat → Bool
  | [] => true
  | b :: rest =>
    if b ≤ 0x7F then isValidUtf8 rest
    else
      match rest with
      | [] => false
      | c1 :: rest1 =>
        if decide (0xC2 ≤ b) && decide (b ≤ 0xDF) then isUtf8Cont c1 && isValidUtf8 rest1
        else
          match rest1 with
          | [] => false
          | c2 :: rest2 =>
            if b = 0xE0 then
              decide (0xA0 ≤ c1) && decide (c1 ≤ 0xBF) && isUtf8Cont c2 && isValidUtf8 rest2
            else if (decide (0xE1 ≤ b) && decide (b ≤ 0xEC)) || decide (b = 0xEE) || decide (b = 0xEF) then
              isUtf8Cont c1 && isUtf8Cont c2 && isValidUtf8 rest2
            else if b = 0xED then
              decide (0x80 ≤ c1) && decide (c1 ≤ 0x9F) && isUtf8Cont c2 && isValidUtf8 rest2
            else
              match rest2 with
              | [] => false
              | c3 :: rest3 =>
                if b = 0xF0 then
                  decide (0x90 ≤ c1) && decide (c1 ≤ 0xBF) && isUtf8Cont c2 && isUtf8Cont c3 &&
                    isValidUtf8 rest3
                else if decide (0xF1 ≤ b) && decide (b ≤ 0xF3) then
                  isUtf8Cont c1 && isUtf8Cont c2 && isUtf8Cont c3 && isValidUtf8 rest3
                else if b = 0xF4 then
                  decide (0x80 ≤ c1) && decide (c1 ≤ 0x8F) && isUtf8Cont c2 && isUtf8Cont c3 &&
                    isValidUtf8 rest3
                else false

/-- Modelled from the spec (§4.1): the name validator of
`crate::name_string` (not under `src/`): a name is valid iff its byte
length is in `[1, 256]`, its first byte is an ASCII letter, `_`, or any
byte `≥ 0x80`, every later byte is ASCII alphanumeric, `_`, `.`, `+`, `-`,
`@`, or `≥ 0x80`, and the whole byte string is valid UTF-8. -/
def is_valid_name (name : List Nat) : Bool :=
  match name with
  | [] => false
  | b :: rest =>
    isNameFirstByte b && rest.all isNameRestByte &&
    decide ((b :: rest).length ≤ 256) && isValidUtf8 (b :: rest)

/-! ### `src/data_set/dimension.rs` — the embedded source file -/

/-- The crate's `InvalidDataSet` error, restricted to the variants raised by
the embedded and spec-modelled operations (`DimensionNameNotValid` is the
source's name for the spec's `InvalidName`). -/
inductive InvalidDataSet
  | DimensionNameNotValid (name : List Nat)
  | DimensionAlreadyExists (name : List Nat)
  | UnlimitedAlreadyExists
deriving DecidableEq, Repr

/-- `DimensionType` — type of a dimension, fixed or unlimited size. -/
inductive DimensionType
  | UnlimitedSize
  | FixedSize
deriving DecidableEq, Repr

/-- `DimensionSize` — internal representation of the size of a dimension.
The `RefCell<usize>` of the `Unlimited` variant is represented by its
contents. -/
inductive DimensionSize
  | Unlimited (size : Nat)
  | Fixed (size : Nat)
deriving DecidableEq, Repr

/-- `Dimension` — a NetCDF-3 dimension; the `RefCell<String>` name cell is
represented by its contents (the derived `PartialEq` compares contents). -/
structure Dimension where
  name : List Nat
  size : DimensionSize
deriving DecidableEq, Repr

/-- `DimensionSize::new` — create a new unlimited or fixed size. -/
def DimensionSize.new (size : Nat) (t : DimensionType) : DimensionSize :=
  match t with
  | DimensionType.FixedSize => DimensionSize.Fixed size
  | DimensionType.UnlimitedSize => DimensionSize.Unlimited size

/-- `DimensionSize::size` — return the size of the dimension. -/
def DimensionSize.size : DimensionSize → Nat
  | DimensionSize.Unlimited s => s
  | DimensionSize.Fixed s => s

/-- `DimensionSize::type` — return the type of the dimension size. -/
def DimensionSize.type : DimensionSize → DimensionType
  | DimensionSize.Unlimited _ => DimensionType.UnlimitedSize
  | DimensionSize.Fixed _ => DimensionType.FixedSize

/-- `Dimension::size()` — the accessor method (named `size'` here because
the struct field keeps the source field's name `size`). -/
def Dimension.size' (d : Dimension) : Nat := d.size.size

/-- `Dimension::dim_type()` — the dimension type accessor. -/
def Dimension.dim_type (d : Dimension) : DimensionType := d.size.type

/-- `Dimension::is_unlimited()`. -/
def Dimension.is_unlimited (d : Dimension) : Bool :=
  decide (d.dim_type = DimensionType.UnlimitedSize)

/-- `Dimension::is_fixed()`. -/
def Dimension.is_fixed (d : Dimension) : Bool :=
  decide (d.dim_type = DimensionType.FixedSize)

/-- `Dimension::check_dim_name`. -/
def Dimension.check_dim_name (dim_name : List Nat) : Except InvalidDataSet Unit :=
  match is_valid_name dim_name with
  | true => Except.ok ()
  | false => Except.error (InvalidDataSet.DimensionNameNotValid dim_name)

/-- `Dimension::new_fixed_size` — creates a new fixed-size dimension. -/
def Dimension.new_fixed_size (name : List Nat) (size : Nat) :
    Except InvalidDataSet Dimension :=
  match Dimension.check_dim_name name with
  | Except.error e => Except.error e
  | Except.ok _ =>
    Except.ok { name := name, size := DimensionSize.new size DimensionType.FixedSize }

/-- `Dimension::new_unlimited_size` — creates a new unlimited-size dimension. -/
def Dimension.new_unlimited_size (name : List Nat) (size : Nat) :
    Except InvalidDataSet Dimension :=
  match Dimension.check_dim_name name with
  | Except.error e => Except.error e
  | Except.ok _ =>
    Except.ok { name := name, size := DimensionSize.new size DimensionType.UnlimitedSize }

/-- Modelled from the spec (§4.8): `Dimension size mutation (unlimited) is
the only interior mutation exposed by the model`. The model updates the
unlimited size through the shared handle's `RefCell`; a fixed-size
dimension carries no cell, so no update is possible through a shared
reference. -/
def Dimension.set_size (d : Dimension) (s : Nat) : Option Dimension :=
  match d.size with
  | DimensionSize.Unlimited _ => some { d with size := DimensionSize.Unlimited s }
  | DimensionSize.Fixed _ => none

/-! ### Data-set model (spec §3, §4.3, §9) -/

/-- The six NetCDF-3 scalar type tags (spec §3). -/
inductive NcType
  | i8
  | char
  | i16
  | i32
  | f32
  | f64
deriving DecidableEq, Repr

/-- On-disk type tag of a scalar type (spec §4.4: `one of 1–6`). -/
def NcType.tag : NcType → Nat
  | NcType.i8 => 1
  | NcType.char => 2
  | NcType.i16 => 3
  | NcType.i32 => 4
  | NcType.f32 => 5
  | NcType.f64 => 6

/-- On-disk element width of a scalar type (spec §3: 1, 1, 2, 4, 4, 8). -/
def NcType.elemWidth : NcType → Nat
  | NcType.i8 => 1
  | NcType.char => 1
  | NcType.i16 => 2
  | NcType.i32 => 4
  | NcType.f32 => 4
  | NcType.f64 => 8

/-- Decode an on-disk type tag (spec §4.4: tags 1–6, anything else is
`InvalidTypeTag`). -/
def tagToType (n : Nat) : Option NcType :=
  if n = 1 then some NcType.i8
  else if n = 2 then some NcType.char
  else if n = 3 then some NcType.i16
  else if n = 4 then some NcType.i32
  else if n = 5 then some NcType.f32
  else if n = 6 then some NcType.f64
  else none

/-- Modelled from the spec (§3, §9): an attribute — name, scalar type tag
and an ordered value sequence. Values of every type are carried as their
on-disk big-endian bit patterns (a `Nat` below `256 ^ elemWidth`), which
represents the tagged variant `{i8[], char[], i16[], i32[], f32[], f64[]}`
without interpreting float payloads. -/
structure Attribute where
  name : List Nat
  type : NcType
  values : List Nat
deriving DecidableEq, Repr

/-- Modelled from the spec (§3, §9): a variable — name, shape as a list of
dimension indices into the data set's dimension list (`Variables store
dimension indices`), per-variable attributes and a scalar type. -/
structure Variable where
  name : List Nat
  dims : List Nat
  attrs : List Attribute
  type : NcType
deriving DecidableEq, Repr

/-- Modelled from the spec (§3): a data set — ordered dimensions, ordered
global attributes and ordered variables. -/
structure DataSet where
  dims : List Dimension
  attrs : List Attribute
  vars : List Variable
deriving DecidableEq, Repr

/-- Modelled from the spec (§4.4, invariant of §3): the record count — the
size of the unlimited dimension, or 0 when there is none. -/
def DataSet.numRecs (ds : DataSet) : Nat :=
  match ds.dims.find? (fun d => d.is_unlimited) with
  | some d => d.size'
  | none => 0

/-- Modelled from the spec (§4.3): `add_fixed_dim(name, size)`; the
`&mut self` receiver is modelled by returning the updated state next to the
result, failure paths return the receiver unchanged. -/
def DataSet.add_fixed_dim (ds : DataSet) (name : List Nat) (size : Nat) :
    Except InvalidDataSet Dimension × DataSet :=
  match Dimension.new_fixed_size name size with
  | Except.error e => (Except.error e, ds)
  | Except.ok d =>
    if ds.dims.any (fun d0 => decide (d0.name = name)) then
      (Except.error (InvalidDataSet.DimensionAlreadyExists name), ds)
    else
      (Except.ok d, { ds with dims := ds.dims ++ [d] })

/-- Modelled from the spec (§4.3): `set_unlimited_dim(name, size)`; fails
with `UnlimitedAlreadyExists` when an unlimited dimension is already set,
with `DimensionAlreadyExists` on a name collision, and with the
constructor's `InvalidName` on an invalid name. -/
def DataSet.set_unlimited_dim (ds : DataSet) (name : List Nat) (size : Nat) :
    Except InvalidDataSet Dimension × DataSet :=
  match Dimension.new_unlimited_size name size with
  | Except.error e => (Except.error e, ds)
  | Except.ok d =>
    if ds.dims.any (fun d0 => d0.is_unlimited) then
      (Except.error InvalidDataSet.UnlimitedAlreadyExists, ds)
    else if ds.dims.any (fun d0 => decide (d0.name = name)) then
      (Except.error (InvalidDataSet.DimensionAlreadyExists name), ds)
    else
      (Except.ok d, { ds with dims := ds.dims ++ [d] })

/-! ### Layout planner (spec §4.5) -/

/-- Is dimension id `i` the unlimited dimension of `ds`? -/
def DataSet.isUnlimitedId (ds : DataSet) (i : Nat) : Bool :=
  match ds.dims[i]? with
  | some d => d.is_unlimited
  | none => false

/-- Size of the dimension with id `i` (0 for an out-of-range id). -/
def DataSet.dimSizeAt (ds : DataSet) (i : Nat) : Nat :=
  match ds.dims[i]? with
  | some d => d.size'
  | none => 0

/-- Modelled from the spec (§3, glossary): a record variable is one whose
shape contains the unlimited dimension. -/
def DataSet.isRecordVar (ds : DataSet) (v : Variable) : Bool :=
  v.dims.any (fun i => ds.isUnlimitedId i)

/-- The record variables of a data set, in insertion order. -/
def DataSet.recordVars (ds : DataSet) : List Variable :=
  ds.vars.filter (fun v => ds.isRecordVar v)

/-- The fixed variables of a data set, in insertion order. -/
def DataSet.fixedVars (ds : DataSet) : List Variable :=
  ds.vars.filter (fun v => !(ds.isRecordVar v))

/-- Modelled from the spec (§4.5): `var_size(variable)` — product of the
fixed dimensions' sizes times the element size; the unlimited dimension is
treated as 1 (per-record contribution). -/
def DataSet.vsizeRaw (ds : DataSet) (v : Variable) : Nat :=
  v.type.elemWidth *
    (v.dims.map (fun i => if ds.isUnlimitedId i then 1 else ds.dimSizeAt i)).prod

/-- Modelled from the spec (§4.5): the encoded `vsize` field —
`round_up_4(vsize_raw)`. -/
def DataSet.vsize (ds : DataSet) (v : Variable) : Nat :=
  roundUp4 (ds.vsizeRaw v)

/-- Modelled from the spec (§4.5): the on-disk span a variable occupies in
the sequential layout: `round_up_4(vsize_raw)`, except that the single
record variable of a single-record-variable layout is not padded. -/
def DataSet.vsizePadded (ds : DataSet) (v : Variable) : Nat :=
  if ds.isRecordVar v && decide (ds.recordVars.length < 2) then ds.vsizeRaw v
  else roundUp4 (ds.vsizeRaw v)

/-- Modelled from the spec (§4.6, §4.5): the total size of a variable —
the product of all its dimensions' sizes (the unlimited one contributing
the record count) times the element size. -/
def DataSet.totalSize (ds : DataSet) (v : Variable) : Nat :=
  v.type.elemWidth * (v.dims.map (fun i => ds.dimSizeAt i)).prod

/-- The two on-disk format versions (spec §4.4). -/
inductive Version
  | classic
  | sixtyFourBitOffset
deriving DecidableEq, Repr

/-- Version byte of the magic (spec §4.4: `0x01` classic, `0x02` 64-bit
offset). -/
def Version.byte : Version → Nat
  | Version.classic => 1
  | Version.sixtyFourBitOffset => 2

/-- Width of the encoded variable offset (spec §4.4: `i32` in classic,
`i64` in 64-bit-offset). -/
def Version.offsetWidth : Version → Nat
  | Version.classic => 4
  | Version.sixtyFourBitOffset => 8

/-- Decode the version byte of the magic. -/
def versionOfByte (b : Nat) : Option Version :=
  if b = 1 then some Version.classic
  else if b = 2 then some Version.sixtyFourBitOffset
  else none

/-! ### Header encoder (spec §4.4, writer side of §4.7) -/

/-- 4-byte big-endian field. -/
def i32be (n : Nat) : List Nat := beBytes 4 n

/-- Modelled from the spec (§4.4): a name is encoded as a length-prefixed
(`i32` byte count) byte string followed by 0 to 3 zero bytes of padding. -/
def encName (n : List Nat) : List Nat := i32be n.length ++ padTo4 n

/-- Modelled from the spec (§4.4): an attribute's value block — the values
in the tagged type, big-endian, with 4-byte padding at the end. -/
def encValues (t : NcType) (vs : List Nat) : List Nat :=
  padTo4 ((vs.map (beBytes t.elemWidth)).flatten)

/-- Modelled from the spec (§4.4): an attribute entry — name, type tag,
value count, padded value block. -/
def encAttr (a : Attribute) : List Nat :=
  encName a.name ++ i32be a.type.tag ++ i32be a.values.length ++ encValues a.type a.values

/-- Modelled from the spec (§4.4): a list header — the tag and the entry
count; an empty list is encoded as tag 0 plus count 0. -/
def encListHeader (tag : Nat) (count : Nat) : List Nat :=
  if count = 0 then i32be 0 ++ i32be 0 else i32be tag ++ i32be count

/-- Modelled from the spec (§4.4): an attribute list (tag `0x0C`). -/
def encAttrList (as' : List Attribute) : List Nat :=
  encListHeader 0x0C as'.length ++ (as'.map encAttr).flatten

/-- Modelled from the spec (§4.4): the raw `i32` size field of a dimension
entry — the fixed size, or 0 denoting the unlimited dimension. -/
def dimRawSize (d : Dimension) : Nat :=
  match d.size with
  | DimensionSize.Fixed n => n
  | DimensionSize.Unlimited _ => 0

/-- Modelled from the spec (§4.4): a dimension entry is its padded name
followed by its raw size field. -/
def encDim (d : Dimension) : List Nat :=
  encName d.name ++ i32be (dimRawSize d)

/-- Modelled from the spec (§4.4): the dimension list (tag `0x0A`). -/
def encDimList (dims : List Dimension) : List Nat :=
  encListHeader 0x0A dims.length ++ (dims.map encDim).flatten

/-- Modelled from the spec (§4.4): a variable entry — padded name,
dimension count, dimension ids, attribute list, type tag, `vsize`, and the
offset (`i32` classic / `i64` 64-bit-offset). -/
def encVar (V : Version) (ds : DataSet) (offset : Nat) (v : Variable) : List Nat :=
  encName v.name ++ i32be v.dims.length ++ (v.dims.map i32be).flatten ++
  encAttrList v.attrs ++ i32be v.type.tag ++ i32be (ds.vsize v) ++
  beBytes V.offsetWidth offset

/-- Modelled from the spec (§4.4): the variable list (tag `0x0B`), each
entry written with its planned offset. -/
def encVarList (V : Version) (ds : DataSet) (offs : List Nat) (vs : List Variable) :
    List Nat :=
  encListHeader 0x0B vs.length ++ (List.zipWith (encVar V ds) offs vs).flatten

/-- Modelled from the spec (§4.4): the whole header — magic `CDF` plus
version byte, record count, dimension list, global attribute list and
variable list, the last with the supplied per-variable offsets. -/
def encHeaderWith (V : Version) (ds : DataSet) (offs : List Nat) : List Nat :=
  [0x43, 0x44, 0x46, V.byte] ++ i32be ds.numRecs ++ encDimList ds.dims ++
  encAttrList ds.attrs ++ encVarList V ds offs ds.vars

/-- Modelled from the spec (§4.7 step 1, sizing pass): the header's byte
length; offset fields have a fixed width, so the sizing pass measures the
header with zero offsets. -/
def headerLen (ds : DataSet) (V : Version) : Nat :=
  (encHeaderWith V ds (ds.vars.map (fun _ => 0))).length

/-- Sequential offsets: each entry starts where the previous one ended. -/
def assignOffsets (start : Nat) : List Nat → List Nat
  | [] => []
  | s :: ss => start :: assignOffsets (start + s) ss

/-- Modelled from the spec (§4.5): the planned offset of one variable —
fixed variables first in insertion order, then record variables in
insertion order, assigned sequentially beginning right after the header. -/
def DataSet.offsetOf (ds : DataSet) (V : Version) (v : Variable) : Nat :=
  let order := ds.fixedVars ++ ds.recordVars
  let offs := assignOffsets (headerLen ds V) (order.map (fun w => ds.vsizePadded w))
  offs.getD (order.findIdx (fun w => decide (w = v))) 0

/-- The planned offsets of all variables, in insertion order. -/
def DataSet.plannedOffsets (ds : DataSet) (V : Version) : List Nat :=
  ds.vars.map (fun v => ds.offsetOf V v)

/-- Modelled from the spec (§4.5): the 64-bit-offset format is required iff
a computed (classic-layout) offset or a variable's total size exceeds
`2^31 - 1`. -/
def DataSet.requires64 (ds : DataSet) : Bool :=
  (ds.plannedOffsets Version.classic).any (fun o => decide (2 ^ 31 - 1 < o)) ||
  ds.vars.any (fun v => decide (2 ^ 31 - 1 < ds.totalSize v))

/-- A version is acceptable by the planner when it is the 64-bit-offset
format or the data set does not require that format. -/
def acceptableVersion (ds : DataSet) (V : Version) : Bool :=
  match V with
  | Version.sixtyFourBitOffset => true
  | Version.classic => !ds.requires64

/-- Modelled from the spec (§4.7 steps 3–4): the writer's header emission —
the header with the planner's offsets. The variable payload that follows
the header in the file does not affect the materialized data set, so the
round-trip statements quantify over an arbitrary byte tail. -/
def writeHeader (ds : DataSet) (V : Version) : List Nat :=
  encHeaderWith V ds (ds.plannedOffsets V)

/-! ### Header parser (spec §4.4, reader side of §4.6) -/

/-- Modelled from the spec (§4.4): read a length-prefixed padded name; the
reader materializes the bytes as a string, so the UTF-8 validity check of
`String::from_utf8` is performed here. -/
def parseName (bs : List Nat) : Option (List Nat × List Nat) :=
  match readU32 bs with
  | none => none
  | some (len, bs1) =>
    match takeBytes (len + padLen len) bs1 with
    | none => none
    | some (chunk, bs2) =>
      if isValidUtf8 (chunk.take len) then some (chunk.take len, bs2) else none

/-- Modelled from the spec (§4.4): read and decode a type tag. -/
def parseType (bs : List Nat) : Option (NcType × List Nat) :=
  match readU32 bs with
  | none => none
  | some (t, bs1) =>
    match tagToType t with
    | none => none
    | some ty => some (ty, bs1)

/-- Split a byte block into `count` big-endian values of `w` bytes each. -/
def chunkVals (w : Nat) : Nat → List Nat → List Nat
  | 0, _ => []
  | c + 1, bs => beVal (bs.take w) :: chunkVals w c (bs.drop w)

/-- Modelled from the spec (§4.4): read an attribute's padded value block —
`count` values of the element width, then the alignment padding. -/
def parseValues (t : NcType) (count : Nat) (bs : List Nat) :
    Option (List Nat × List Nat) :=
  match takeBytes (count * t.elemWidth + padLen (count * t.elemWidth)) bs with
  | none => none
  | some (chunk, bs1) =>
    some (chunkVals t.elemWidth count (chunk.take (count * t.elemWidth)), bs1)

/-- Modelled from the spec (§4.4): read one attribute entry. -/
def parseAttr (bs : List Nat) : Option (Attribute × List Nat) :=
  match parseName bs with
  | none => none
  | some (nm, bs1) =>
    match parseType bs1 with
    | none => none
    | some (t, bs2) =>
      match readU32 bs2 with
      | none => none
      | some (count, bs3) =>
        match parseValues t count bs3 with
        | none => none
        | some (vs, bs4) => some ({ name := nm, type := t, values := vs }, bs4)

/-- Run a sub-reader a fixed number of times. -/
def parseN {α : Type} (p : List Nat → Option (α × List Nat)) :
    Nat → List Nat → Option (List α × List Nat)
  | 0, bs => some ([], bs)
  | c + 1, bs =>
    match p bs with
    | none => none
    | some (a, bs1) =>
      match parseN p c bs1 with
      | none => none
      | some (as', bs2) => some (a :: as', bs2)

/-- Modelled from the spec (§4.4): read a tagged list — either the empty
encoding (tag 0, count 0) or the expected tag with a nonzero count followed
by the entries. -/
def parseList {α : Type} (tag : Nat) (p : List Nat → Option (α × List Nat))
    (bs : List Nat) : Option (List α × List Nat) :=
  match readU32 bs with
  | none => none
  | some (t, bs1) =>
    match readU32 bs1 with
    | none => none
    | some (count, bs2) =>
      if t = 0 ∧ count = 0 then some ([], bs2)
      else if t = tag ∧ count ≠ 0 then parseN p count bs2
      else none

/-- Modelled from the spec (§4.4): read one dimension entry — padded name
and raw `i32` size (0 denoting the unlimited dimension). -/
def parseDimEntry (bs : List Nat) : Option ((List Nat × Nat) × List Nat) :=
  match parseName bs with
  | none => none
  | some (nm, bs1) =>
    match readU32 bs1 with
    | none => none
    | some (sz, bs2) => some ((nm, sz), bs2)

/-- Modelled from the spec (§4.4, §4.6): materialize a dimension from its
header entry — size 0 denotes the unlimited dimension, whose current size
is the file's record count. -/
def mkDim (numrecs : Nat) (e : List Nat × Nat) : Dimension :=
  if e.2 = 0 then { name := e.1, size := DimensionSize.Unlimited numrecs }
  else { name := e.1, size := DimensionSize.Fixed e.2 }

/-- Modelled from the spec (§4.4): read one variable entry — padded name,
dimension count, dimension ids (validated against the dimension list),
attribute list, type tag, then the `vsize` and offset fields, which the
reader skips when materializing the data set (the layout is recomputed). -/
def parseVarEntry (V : Version) (numDims : Nat) (bs : List Nat) :
    Option (Variable × List Nat) :=
  match parseName bs with
  | none => none
  | some (nm, bs1) =>
    match readU32 bs1 with
    | none => none
    | some (ndims, bs2) =>
      match parseN readU32 ndims bs2 with
      | none => none
      | some (ids, bs3) =>
        if ids.all (fun i => decide (i < numDims)) then
          match parseList 0x0C parseAttr bs3 with
          | none => none
          | some (vattrs, bs4) =>
            match parseType bs4 with
            | none => none
            | some (ty, bs5) =>
              match takeBytes 4 bs5 with
              | none => none
              | some (_, bs6) =>
                match takeBytes V.offsetWidth bs6 with
                | none => none
                | some (_, bs7) =>
                  some ({ name := nm, dims := ids, attrs := vattrs, type := ty }, bs7)
        else none

/-- Modelled from the spec (§4.4, §4.6): parse a file header and
materialize the data set; the remaining bytes (the variable payload) are
returned unconsumed. The reader tolerates the record-count sentinel
`0xFFFFFFFF` and treats it as 0. -/
def parseHeader (bs : List Nat) : Option (DataSet × List Nat) :=
  match takeBytes 4 bs with
  | none => none
  | some (magic, bs1) =>
    if magic.take 3 = [0x43, 0x44, 0x46] then
      match versionOfByte (magic.getD 3 0) with
      | none => none
      | some V =>
        match readU32 bs1 with
        | none => none
        | some (nrRaw, bs2) =>
          let numrecs := if nrRaw = 0xFFFFFFFF then 0 else nrRaw
          match parseList 0x0A parseDimEntry bs2 with
          | none => none
          | some (dimEntries, bs3) =>
            match parseList 0x0C parseAttr bs3 with
            | none => none
            | some (gatts, bs4) =>
              match parseList 0x0B (parseVarEntry V dimEntries.length) bs4 with
              | none => none
              | some (vs, bs5) =>
                some ({ dims := dimEntries.map (mkDim numrecs),
                        attrs := gatts, vars := vs }, bs5)
    else none

/-! ### Validity of a data set (spec §3 invariants) -/

/-- A value of a scalar type is carried as a bit pattern below
`256 ^ elemWidth`. -/
def validValue (t : NcType) (v : Nat) : Bool := decide (v < 256 ^ t.elemWidth)

/-- Modelled from the spec (§3): a well-formed attribute — valid name,
values in range of the tagged type, a value count representable as `i32`
and nonempty for numeric types (`length ≥ 1 for numeric, ≥ 0 for text`). -/
def validAttr (a : Attribute) : Bool :=
  is_valid_name a.name && a.values.all (fun v => validValue a.type v) &&
  decide (a.values.length < 2 ^ 31) &&
  (decide (a.type = NcType.char) || decide (1 ≤ a.values.length))

/-- Modelled from the spec (§3): a well-formed variable of a data set —
valid unique-checked name, in-range dimension ids, the unlimited dimension
only in position 0, well-formed attributes with distinct names. -/
def DataSet.validVar (ds : DataSet) (v : Variable) : Bool :=
  is_valid_name v.name &&
  v.dims.all (fun i => decide (i < ds.dims.length)) &&
  decide (v.dims.length < 2 ^ 31) &&
  v.attrs.all validAttr && decide ((v.attrs.map Attribute.name).Nodup) &&
  decide (v.attrs.length < 2 ^ 31) &&
  (List.range v.dims.length).all
    (fun j => !(ds.isUnlimitedId (v.dims.getD j 0)) || decide (j = 0))

/-- Modelled from the spec (§3): the data-set invariants — unique valid
dimension/variable/attribute names, representable sizes and counts, at
most one unlimited dimension, record variables using it only in leading
position. -/
def DataSet.valid (ds : DataSet) : Bool :=
  ds.dims.all (fun d => is_valid_name d.name && decide (d.size' < 2 ^ 31)) &&
  decide ((ds.dims.map Dimension.name).Nodup) &&
  decide ((ds.dims.filter (fun d => d.is_unlimited)).length ≤ 1) &&
  decide (ds.dims.length < 2 ^ 31) &&
  ds.attrs.all validAttr && decide ((ds.attrs.map Attribute.name).Nodup) &&
  decide (ds.attrs.length < 2 ^ 31) &&
  ds.vars.all (fun v => ds.validVar v) &&
  decide ((ds.vars.map Variable.name).Nodup) &&
  decide (ds.vars.length < 2 ^ 31)

/-- Every fixed dimension has a nonzero size (the proviso of the amended
round-trip statement: the on-disk encoding reserves size 0 for the
unlimited dimension). -/
def DataSet.fixedDimsPositive (ds : DataSet) : Bool :=
  ds.dims.all (fun d => !(d.is_fixed) || decide (1 ≤ d.size'))

/-! ### Lemmas: byte primitives -/

theorem length_beBytes (w n : Nat) : (beBytes w n).length = w := by
  induction w generalizing n with
  | zero => rfl
  | succ k ih => simp [beBytes, ih]

theorem beVal_append_singleton (xs : List Nat) (b : Nat) :
    beVal (xs ++ [b]) = 256 * beVal xs + b := by
  induction xs with
  | nil => simp [beVal]
  | cons x xs ih =>
    rw [List.cons_append]
    show x * 256 ^ (xs ++ [b]).length + beVal (xs ++ [b]) = _
    rw [ih, List.length_append, List.length_singleton]
    show x * 256 ^ (xs.length + 1) + (256 * beVal xs + b) =
      256 * (x * 256 ^ xs.length + beVal xs) + b
    ring

theorem beVal_beBytes (w n : Nat) : beVal (beBytes w n) = n % 256 ^ w := by
  induction w generalizing n with
  | zero => simp [beBytes, beVal, Nat.mod_one]
  | succ k ih =>
    have hsplit : n % 256 ^ (k + 1) = n % 256 + 256 * (n / 256 % 256 ^ k) := by
      have : (256 : Nat) ^ (k + 1) = 256 * 256 ^ k := by ring
      rw [this, Nat.mod_mul]
    rw [beBytes, beVal_append_singleton, ih, hsplit]
    ring

theorem beVal_beBytes_of_lt {w n : Nat} (h : n < 256 ^ w) :
    beVal (beBytes w n) = n := by
  rw [beVal_beBytes, Nat.mod_eq_of_lt h]

theorem takeBytes_append {w : Nat} {xs : List Nat} (r : List Nat)
    (hw : xs.length = w) : takeBytes w (xs ++ r) = some (xs, r) := by
  subst hw
  unfold takeBytes
  rw [if_pos (by simp), List.take_left, List.drop_left]

theorem readU32_i32be {n : Nat} (r : List Nat) (h : n < 2 ^ 32) :
    readU32 (i32be n ++ r) = some (n, r) := by
  have h4 : n < 256 ^ 4 := by
    have : (256 : Nat) ^ 4 = 2 ^ 32 := by norm_num
    omega
  unfold readU32 i32be
  rw [takeBytes_append r (length_beBytes 4 n)]
  show some (beVal (beBytes 4 n), r) = some (n, r)
  rw [beVal_beBytes_of_lt h4]

theorem length_padTo4 (bs : List Nat) :
    (padTo4 bs).length = bs.length + padLen bs.length := by
  simp [padTo4]

/-! ### Lemmas: names -/

theorem is_valid_name_parts {n : List Nat} (h : is_valid_name n = true) :
    n.length ≤ 256 ∧ isValidUtf8 n = true := by
  cases n with
  | nil => exact absurd h (by simp [is_valid_name])
  | cons b rest =>
    simp only [is_valid_name, Bool.and_eq_true, decide_eq_true_eq] at h
    exact ⟨h.1.2, h.2⟩

theorem parseName_encName {n : List Nat} (r : List Nat)
    (hlen : n.length ≤ 256) (hutf : isValidUtf8 n = true) :
    parseName (encName n ++ r) = some (n, r) := by
  have h1 : readU32 (i32be n.length ++ (padTo4 n ++ r)) = some (n.length, padTo4 n ++ r) :=
    readU32_i32be _ (by omega)
  have h2 : takeBytes (n.length + padLen n.length) (padTo4 n ++ r) =
      some (n ++ List.replicate (padLen n.length) 0, r) := by
    rw [show padTo4 n ++ r = (n ++ List.replicate (padLen n.length) 0) ++ r from by
          simp [padTo4],
        takeBytes_append r (by simp)]
  simp only [parseName, encName, List.append_assoc, h1, h2, List.take_left, hutf]
  simp

/-! ### Lemmas: type tags and value blocks -/

theorem tagToType_tag (t : NcType) : tagToType t.tag = some t := by
  cases t <;> rfl

theorem tag_lt (t : NcType) : t.tag < 2 ^ 32 := by
  cases t <;> norm_num [NcType.tag]

theorem parseType_tag (t : NcType) (r : List Nat) :
    parseType (i32be t.tag ++ r) = some (t, r) := by
  unfold parseType
  rw [readU32_i32be r (tag_lt t)]
  show (match tagToType t.tag with
        | none => none
        | some ty => some (ty, r)) = some (t, r)
  rw [tagToType_tag]

theorem flatten_map_length {α : Type} (w : Nat) (enc : α → List Nat)
    (hl : ∀ x, (enc x).length = w) (xs : List α) :
    ((xs.map enc).flatten).length = xs.length * w := by
  induction xs with
  | nil => simp
  | cons x xs ih =>
    simp only [List.map_cons, List.flatten_cons, List.length_append, List.length_cons, ih, hl]
    ring

theorem chunkVals_flatten {w : Nat} (vs : List Nat)
    (hv : ∀ v ∈ vs, v < 256 ^ w) :
    chunkVals w vs.length ((vs.map (beBytes w)).flatten) = vs := by
  induction vs with
  | nil => rfl
  | cons v vs ih =>
    simp only [List.map_cons, List.flatten_cons, List.length_cons, chunkVals]
    rw [List.take_left' (length_beBytes w v), List.drop_left' (length_beBytes w v),
        beVal_beBytes_of_lt (hv v (List.mem_cons_self v vs)),
        ih (fun u hu => hv u (List.mem_cons_of_mem _ hu))]

theorem parseValues_encValues (t : NcType) (vs : List Nat) (r : List Nat)
    (hv : ∀ v ∈ vs, v < 256 ^ t.elemWidth) :
    parseValues t vs.length (encValues t vs ++ r) = some (vs, r) := by
  have hJ : ((vs.map (beBytes t.elemWidth)).flatten).length = vs.length * t.elemWidth :=
    flatten_map_length t.elemWidth (beBytes t.elemWidth) (fun x => length_beBytes _ x) vs
  unfold parseValues encValues
  rw [takeBytes_append r (by rw [length_padTo4, hJ])]
  show some (chunkVals t.elemWidth vs.length
      ((padTo4 ((vs.map (beBytes t.elemWidth)).flatten)).take (vs.length * t.elemWidth)), r) =
    some (vs, r)
  rw [show padTo4 ((vs.map (beBytes t.elemWidth)).flatten) =
        (vs.map (beBytes t.elemWidth)).flatten ++
          List.replicate (padLen (vs.length * t.elemWidth)) 0 from by rw [padTo4, hJ],
      List.take_left' hJ, chunkVals_flatten vs hv]

/-! ### Lemmas: attribute entries -/

theorem parseAttr_encAttr (a : Attribute) (r : List Nat) (ha : validAttr a = true) :
    parseAttr (encAttr a ++ r) = some (a, r) := by
  simp only [validAttr, Bool.and_eq_true, Bool.or_eq_true, decide_eq_true_eq,
    List.all_eq_true, validValue] at ha
  obtain ⟨⟨⟨hname, hvals⟩, hcnt⟩, -⟩ := ha
  obtain ⟨hlen, hutf⟩ := is_valid_name_parts hname
  have hv : ∀ v ∈ a.values, v < 256 ^ a.type.elemWidth := fun v h => hvals v h
  have h1 := parseName_encName
    (i32be a.type.tag ++ (i32be a.values.length ++ (encValues a.type a.values ++ r))) hlen hutf
  have h2 := parseType_tag a.type (i32be a.values.length ++ (encValues a.type a.values ++ r))
  have h3 := readU32_i32be (n := a.values.length) (encValues a.type a.values ++ r) (by omega)
  have h4 := parseValues_encValues a.type a.values r hv
  simp only [parseAttr, encAttr, List.append_assoc, h1, h2, h3, h4]

/-! ### Lemmas: counted lists -/

theorem parseN_flatten {α β : Type} (p : List Nat → Option (β × List Nat))
    (enc : α → List Nat) (f : α → β) (xs : List α) (r : List Nat)
    (h : ∀ x ∈ xs, ∀ r', p (enc x ++ r') = some (f x, r')) :
    parseN p xs.length ((xs.map enc).flatten ++ r) = some (xs.map f, r) := by
  induction xs generalizing r with
  | nil => simp [parseN]
  | cons x xs ih =>
    have hx := h x (List.mem_cons_self x xs) ((xs.map enc).flatten ++ r)
    have hrec := ih r (fun y hy r' => h y (List.mem_cons_of_mem x hy) r')
    simp only [List.map_cons, List.flatten_cons, List.length_cons, List.append_assoc,
      parseN, hx, hrec]

theorem parseList_enc {α β : Type} (tag : Nat) (p : List Nat → Option (β × List Nat))
    (enc : α → List Nat) (f : α → β) (xs : List α) (r : List Nat)
    (htag : tag < 2 ^ 32) (htagnz : tag ≠ 0) (hlen : xs.length < 2 ^ 32)
    (h : ∀ x ∈ xs, ∀ r', p (enc x ++ r') = some (f x, r')) :
    parseList tag p (encListHeader tag xs.length ++ ((xs.map enc).flatten ++ r)) =
      some (xs.map f, r) := by
  cases xs with
  | nil =>
    have h0 : readU32 (i32be 0 ++ (i32be 0 ++ r)) = some (0, i32be 0 ++ r) :=
      readU32_i32be _ (by norm_num)
    have h0' : readU32 (i32be 0 ++ r) = some (0, r) := readU32_i32be _ (by norm_num)
    show parseList tag p (encListHeader tag [].length ++ ([] ++ r)) = some ([], r)
    rw [show encListHeader tag [].length ++ ([] ++ r) = i32be 0 ++ (i32be 0 ++ r) from by
          simp [encListHeader]]
    unfold parseList
    rw [h0]
    show (match readU32 (i32be 0 ++ r) with
          | none => none
          | some (count, bs2) =>
            if (0 : Nat) = 0 ∧ count = 0 then some ([], bs2)
            else if (0 : Nat) = tag ∧ count ≠ 0 then parseN p count bs2
            else none) = some ([], r)
    rw [h0']
    simp
  | cons x xs' =>
    have ht : readU32 (i32be tag ++ (i32be (x :: xs').length ++
        (((x :: xs').map enc).flatten ++ r))) =
        some (tag, i32be (x :: xs').length ++ (((x :: xs').map enc).flatten ++ r)) :=
      readU32_i32be _ htag
    have hc : readU32 (i32be (x :: xs').length ++ (((x :: xs').map enc).flatten ++ r)) =
        some ((x :: xs').length, ((x :: xs').map enc).flatten ++ r) :=
      readU32_i32be _ hlen
    have hne : ¬(tag = 0 ∧ (x :: xs').length = 0) := by
      intro hcontra
      exact htagnz hcontra.1
    have hyes : tag = tag ∧ (x :: xs').length ≠ 0 := ⟨rfl, by simp⟩
    simp only [encListHeader, if_neg (by simp : ¬(x :: xs').length = 0),
      List.append_assoc, parseList, ht, hc, if_neg hne, if_pos hyes]
    exact parseN_flatten p enc f (x :: xs') r h

/-! ### Lemmas: dimension entries -/

theorem dimRawSize_le (d : Dimension) : dimRawSize d ≤ d.size' := by
  rcases d with ⟨nm, sz⟩
  cases sz <;> simp [dimRawSize, Dimension.size', DimensionSize.size]

theorem parseDimEntry_encDim (d : Dimension) (r : List Nat)
    (hname : is_valid_name d.name = true) (hsz : dimRawSize d < 2 ^ 32) :
    parseDimEntry (encDim d ++ r) = some ((d.name, dimRawSize d), r) := by
  obtain ⟨hlen, hutf⟩ := is_valid_name_parts hname
  have h1 := parseName_encName (i32be (dimRawSize d) ++ r) hlen hutf
  have h2 := readU32_i32be (n := dimRawSize d) r hsz
  simp only [parseDimEntry, encDim, List.append_assoc, h1, h2]

theorem mkDim_entry (numrecs : Nat) (d : Dimension)
    (hfix : d.is_fixed = true → 1 ≤ d.size')
    (hunl : d.is_unlimited = true → d.size' = numrecs) :
    mkDim numrecs (d.name, dimRawSize d) = d := by
  rcases d with ⟨nm, sz⟩
  cases sz with
  | Fixed n =>
    have h1 : 1 ≤ n := by
      have := hfix (by simp [Dimension.is_fixed, Dimension.dim_type, DimensionSize.type])
      simpa [Dimension.size', DimensionSize.size] using this
    simp only [mkDim, dimRawSize]
    rw [if_neg (by omega)]
  | Unlimited m =>
    have h1 : m = numrecs := by
      have := hunl (by simp [Dimension.is_unlimited, Dimension.dim_type, DimensionSize.type])
      simpa [Dimension.size', DimensionSize.size] using this
    simp [mkDim, dimRawSize, h1]

/-! ### Lemmas: the unlimited dimension and the record count -/

theorem two_mem_two_le_length {α : Type} {a b : α} {l : List α}
    (ha : a ∈ l) (hb : b ∈ l) (hne : a ≠ b) : 2 ≤ l.length := by
  induction l with
  | nil => cases ha
  | cons x xs ih =>
    rcases List.mem_cons.mp ha with rfl | ha'
    · rcases List.mem_cons.mp hb with rfl | hb'
      · exact absurd rfl hne
      · have := List.length_pos.mpr (List.ne_nil_of_mem hb')
        simp only [List.length_cons]
        omega
    · have := List.length_pos.mpr (List.ne_nil_of_mem ha')
      simp only [List.length_cons]
      omega

theorem unlimited_size_eq_numRecs {ds : DataSet}
    (huniq : (ds.dims.filter (fun d => d.is_unlimited)).length ≤ 1)
    {d : Dimension} (hd : d ∈ ds.dims) (hu : d.is_unlimited = true) :
    d.size' = ds.numRecs := by
  unfold DataSet.numRecs
  cases hfind : ds.dims.find? (fun d => d.is_unlimited) with
  | none =>
    have := List.find?_eq_none.mp hfind d hd
    exact absurd hu this
  | some d' =>
    have hd'mem : d' ∈ ds.dims := List.mem_of_find?_eq_some hfind
    have hd'u : d'.is_unlimited = true := List.find?_some hfind
    by_cases heq : d = d'
    · rw [heq]
    · have h2 : 2 ≤ (ds.dims.filter (fun d => d.is_unlimited)).length :=
        two_mem_two_le_length (List.mem_filter.mpr ⟨hd, hu⟩)
          (List.mem_filter.mpr ⟨hd'mem, hd'u⟩) heq
      omega

theorem numRecs_lt {ds : DataSet}
    (hall : ∀ d ∈ ds.dims, d.size' < 2 ^ 31) : ds.numRecs < 2 ^ 31 := by
  unfold DataSet.numRecs
  cases hfind : ds.dims.find? (fun d => d.is_unlimited) with
  | none => norm_num
  | some d => exact hall d (List.mem_of_find?_eq_some hfind)

/-! ### Lemmas: generic list facts for the assembly -/

theorem map_eq_self {α : Type} {f : α → α} {l : List α}
    (h : ∀ a ∈ l, f a = a) : l.map f = l := by
  induction l with
  | nil => rfl
  | cons x xs ih =>
    rw [List.map_cons, h x (List.mem_cons_self x xs),
      ih (fun a ha => h a (List.mem_cons_of_mem x ha))]

theorem zipWith_map_left {α β γ : Type} (f : β → α → γ) (g : α → β) (l : List α) :
    List.zipWith f (l.map g) l = l.map (fun x => f (g x) x) := by
  induction l with
  | nil => rfl
  | cons x xs ih => simp [ih]

/-! ### Lemmas: variable entries -/

theorem parseVarEntry_encVar (V : Version) (ds : DataSet) (off : Nat) (v : Variable)
    (r : List Nat) (hdl : ds.dims.length < 2 ^ 31) (hvv : ds.validVar v = true) :
    parseVarEntry V ds.dims.length (encVar V ds off v ++ r) = some (v, r) := by
  simp only [DataSet.validVar, Bool.and_eq_true, decide_eq_true_eq,
    List.all_eq_true] at hvv
  obtain ⟨⟨⟨⟨⟨⟨hname, hids⟩, hnd⟩, hattrs⟩, hnodup⟩, hacnt⟩, -⟩ := hvv
  obtain ⟨hlen256, hutf⟩ := is_valid_name_parts hname
  have hidsParse : ∀ r', parseN readU32 v.dims.length ((v.dims.map i32be).flatten ++ r') =
      some (v.dims, r') := by
    intro r'
    have := parseN_flatten readU32 i32be id v.dims r'
      (fun i hi r'' => readU32_i32be r'' (by have := hids i hi; omega))
    simpa using this
  have hif : (v.dims.all fun i => decide (i < ds.dims.length)) = true := by
    simp only [List.all_eq_true, decide_eq_true_eq]
    exact hids
  have hattrList : ∀ r', parseList 0x0C parseAttr (encAttrList v.attrs ++ r') =
      some (v.attrs, r') := by
    intro r'
    have := parseList_enc 0x0C parseAttr encAttr id v.attrs r' (by norm_num) (by norm_num)
      (by omega) (fun a ha r'' => parseAttr_encAttr a r'' (hattrs a ha))
    simpa [encAttrList, List.append_assoc, List.map_id] using this
  have hname' : ∀ r', parseName (encName v.name ++ r') = some (v.name, r') :=
    fun r' => parseName_encName r' hlen256 hutf
  have hcount : ∀ r', readU32 (i32be v.dims.length ++ r') = some (v.dims.length, r') :=
    fun r' => readU32_i32be r' (by omega)
  have htype := parseType_tag v.type
  have hvsize : ∀ r', takeBytes 4 (i32be (ds.vsize v) ++ r') = some (i32be (ds.vsize v), r') :=
    fun r' => takeBytes_append r' (length_beBytes 4 _)
  have hoff : ∀ r', takeBytes V.offsetWidth (beBytes V.offsetWidth off ++ r') =
      some (beBytes V.offsetWidth off, r') :=
    fun r' => takeBytes_append r' (length_beBytes _ _)
  simp only [parseVarEntry, encVar, List.append_assoc, hname', hcount, hidsParse, hif,
    hattrList, htype, hvsize, hoff, if_true]

/-! ### The header round trip -/

theorem parseHeader_writeHeader (ds : DataSet) (V : Version) (tail : List Nat)
    (hv : ds.valid = true) (hfz : ds.fixedDimsPositive = true) :
    parseHeader (writeHeader ds V ++ tail) = some (ds, tail) := by
  simp only [DataSet.valid, Bool.and_eq_true, decide_eq_true_eq, List.all_eq_true] at hv
  obtain ⟨⟨⟨⟨⟨⟨⟨⟨⟨hA, hB⟩, hC⟩, hD⟩, hE⟩, hF⟩, hG⟩, hH⟩, hI⟩, hJ⟩ := hv
  simp only [DataSet.fixedDimsPositive, List.all_eq_true, Bool.or_eq_true,
    Bool.not_eq_true', decide_eq_true_eq] at hfz
  have hnr : ds.numRecs < 2 ^ 31 := numRecs_lt (fun d hd => (hA d hd).2)
  have hmagic : ∀ r', takeBytes 4 ([0x43, 0x44, 0x46, V.byte] ++ r') =
      some ([0x43, 0x44, 0x46, V.byte], r') :=
    fun r' => takeBytes_append r' rfl
  have htake3 : [0x43, 0x44, 0x46, V.byte].take 3 = [0x43, 0x44, 0x46] := rfl
  have hgetD : [0x43, 0x44, 0x46, V.byte].getD 3 0 = V.byte := rfl
  have hvb : versionOfByte V.byte = some V := by cases V <;> rfl
  have hnrRead : ∀ r', readU32 (i32be ds.numRecs ++ r') = some (ds.numRecs, r') :=
    fun r' => readU32_i32be r' (by omega)
  have hsent : ¬(ds.numRecs = 0xFFFFFFFF) := by omega
  have hdimsP : ∀ d ∈ ds.dims, ∀ r',
      parseDimEntry (encDim d ++ r') = some ((d.name, dimRawSize d), r') := by
    intro d hd r'
    refine parseDimEntry_encDim d r' (hA d hd).1 ?_
    have h1 := dimRawSize_le d
    have h2 := (hA d hd).2
    omega
  have hdimlist : ∀ r', parseList 0x0A parseDimEntry (encDimList ds.dims ++ r') =
      some (ds.dims.map (fun d => (d.name, dimRawSize d)), r') := by
    intro r'
    have := parseList_enc 0x0A parseDimEntry encDim (fun d => (d.name, dimRawSize d))
      ds.dims r' (by norm_num) (by norm_num) (by omega) hdimsP
    simpa [encDimList, List.append_assoc] using this
  have hgattlist : ∀ r', parseList 0x0C parseAttr (encAttrList ds.attrs ++ r') =
      some (ds.attrs, r') := by
    intro r'
    have := parseList_enc 0x0C parseAttr encAttr id ds.attrs r' (by norm_num) (by norm_num)
      (by omega) (fun a ha r'' => parseAttr_encAttr a r'' (hE a ha))
    simpa [encAttrList, List.append_assoc, List.map_id] using this
  have hvar1 : ∀ v ∈ ds.vars, ∀ r',
      parseVarEntry V ((ds.dims.map (fun d => (d.name, dimRawSize d))).length)
        (encVar V ds (ds.offsetOf V v) v ++ r') = some (v, r') := by
    intro v hv' r'
    rw [List.length_map]
    exact parseVarEntry_encVar V ds (ds.offsetOf V v) v r' (by omega) (hH v hv')
  have hvarlist : ∀ r',
      parseList 0x0B (parseVarEntry V ((ds.dims.map (fun d => (d.name, dimRawSize d))).length))
        (encVarList V ds (ds.plannedOffsets V) ds.vars ++ r') = some (ds.vars, r') := by
    intro r'
    have hzip : List.zipWith (encVar V ds) (ds.plannedOffsets V) ds.vars =
        ds.vars.map (fun v => encVar V ds (ds.offsetOf V v) v) := by
      rw [DataSet.plannedOffsets, zipWith_map_left]
    have := parseList_enc 0x0B
      (parseVarEntry V ((ds.dims.map (fun d => (d.name, dimRawSize d))).length))
      (fun v => encVar V ds (ds.offsetOf V v) v) id ds.vars r' (by norm_num) (by norm_num)
      (by omega) hvar1
    simpa [encVarList, hzip, List.append_assoc, List.map_id] using this
  have hmk : (ds.dims.map (fun d => (d.name, dimRawSize d))).map (mkDim ds.numRecs) =
      ds.dims := by
    rw [List.map_map]
    refine map_eq_self (fun d hd => ?_)
    show mkDim ds.numRecs (d.name, dimRawSize d) = d
    refine mkDim_entry ds.numRecs d ?_ ?_
    · intro hfix
      rcases hfz d hd with hfalse | hle
      · rw [hfix] at hfalse
        cases hfalse
      · exact hle
    · intro hu
      exact unlimited_size_eq_numRecs hC hd hu
  simp only [writeHeader, encHeaderWith, List.append_assoc, parseHeader, hmagic, htake3,
    hgetD, hvb, hnrRead, if_neg hsent, hdimlist, hgattlist, hvarlist, hmk]
  simp

/-! ### Claim theorems -/

/-- Claim C2: constructing a dimension through `new_fixed_size` or
`new_unlimited_size` fails with the `InvalidName` error
(`DimensionNameNotValid`) carrying the offending text exactly when the name
is not valid, succeeds on every valid name, and no other name-related
outcome is possible. -/
theorem new_dim_invalid_name_iff (n : List Nat) (s : Nat) :
    (Dimension.new_fixed_size n s =
        Except.error (InvalidDataSet.DimensionNameNotValid n) ↔ is_valid_name n = false) ∧
    (Dimension.new_unlimited_size n s =
        Except.error (InvalidDataSet.DimensionNameNotValid n) ↔ is_valid_name n = false) ∧
    ((∃ d, Dimension.new_fixed_size n s = Except.ok d) ↔ is_valid_name n = true) ∧
    ((∃ d, Dimension.new_unlimited_size n s = Except.ok d) ↔ is_valid_name n = true) ∧
    (∀ e, Dimension.new_fixed_size n s = Except.error e →
        e = InvalidDataSet.DimensionNameNotValid n) ∧
    (∀ e, Dimension.new_unlimited_size n s = Except.error e →
        e = InvalidDataSet.DimensionNameNotValid n) := by
  cases h : is_valid_name n <;>
    simp [Dimension.new_fixed_size, Dimension.new_unlimited_size, Dimension.check_dim_name, h]

/-- Witness for C2 at the invalid name `"1"` and the valid name `"a"`. -/
theorem new_dim_invalid_name_iff_witness :
    Dimension.new_fixed_size [0x31] 7 =
        Except.error (InvalidDataSet.DimensionNameNotValid [0x31]) ∧
    (∃ d, Dimension.new_unlimited_size [0x61] 7 = Except.ok d) :=
  ⟨(new_dim_invalid_name_iff [0x31] 7).1.mpr (by decide),
   (new_dim_invalid_name_iff [0x61] 7).2.2.2.1.mpr (by decide)⟩

/-- Claim C3: a name is valid iff its byte length is in `[1, 256]`, its
first byte is an ASCII letter, an underscore, or a byte at least `0x80`,
every later byte is ASCII alphanumeric, `_`, `.`, `+`, `-`, `@`, or at
least `0x80`, and the byte string is valid UTF-8. -/
theorem is_valid_name_characterization (s : List Nat) :
    is_valid_name s = true ↔
      (1 ≤ s.length ∧ s.length ≤ 256 ∧ isNameFirstByte (s.headD 0) = true ∧
       (∀ b ∈ s.tail, isNameRestByte b = true) ∧ isValidUtf8 s = true) := by
  cases s with
  | nil => simp [is_valid_name]
  | cons b rest =>
    simp only [is_valid_name, Bool.and_eq_true, decide_eq_true_eq, List.all_eq_true,
      List.headD_cons, List.tail_cons, List.length_cons]
    constructor
    · rintro ⟨⟨⟨h1, h2⟩, h3⟩, h4⟩
      exact ⟨by omega, h3, h1, h2, h4⟩
    · rintro ⟨-, h3, h1, h2, h4⟩
      exact ⟨⟨⟨h1, h2⟩, h3⟩, h4⟩

/-- Witness for C3 at the name `"a@"`. -/
theorem is_valid_name_characterization_witness :
    is_valid_name [0x61, 0x40] = true ↔
      (1 ≤ ([0x61, 0x40] : List Nat).length ∧ ([0x61, 0x40] : List Nat).length ≤ 256 ∧
       isNameFirstByte (([0x61, 0x40] : List Nat).headD 0) = true ∧
       (∀ b ∈ ([0x61, 0x40] : List Nat).tail, isNameRestByte b = true) ∧
       isValidUtf8 [0x61, 0x40] = true) :=
  is_valid_name_characterization [0x61, 0x40]

/-- Claim C4: for every valid name and every size, `new_fixed_size`
succeeds and the dimension reports that name, that size, the `FixedSize`
type, `is_fixed` true and `is_unlimited` false. -/
theorem new_fixed_size_ok (n : List Nat) (s : Nat) (h : is_valid_name n = true) :
    ∃ d, Dimension.new_fixed_size n s = Except.ok d ∧ d.name = n ∧ d.size' = s ∧
      d.dim_type = DimensionType.FixedSize ∧ d.is_fixed = true ∧
      d.is_unlimited = false := by
  refine ⟨{ name := n, size := DimensionSize.Fixed s }, ?_, rfl, rfl, rfl, rfl, rfl⟩
  simp [Dimension.new_fixed_size, Dimension.check_dim_name, h, DimensionSize.new]

/-- Witness for C4 at the name `"dim_1"` and size 10. -/
theorem new_fixed_size_ok_witness :
    is_valid_name [0x64, 0x69, 0x6D, 0x5F, 0x31] = true ∧
    ∃ d, Dimension.new_fixed_size [0x64, 0x69, 0x6D, 0x5F, 0x31] 10 = Except.ok d ∧
      d.name = [0x64, 0x69, 0x6D, 0x5F, 0x31] ∧ d.size' = 10 ∧
      d.dim_type = DimensionType.FixedSize ∧ d.is_fixed = true ∧
      d.is_unlimited = false :=
  ⟨by decide, new_fixed_size_ok [0x64, 0x69, 0x6D, 0x5F, 0x31] 10 (by decide)⟩

/-- Claim C5: for every valid name and every size, `new_unlimited_size`
succeeds and the dimension reports that name, that size, the
`UnlimitedSize` type, `is_unlimited` true and `is_fixed` false. -/
theorem new_unlimited_size_ok (n : List Nat) (s : Nat) (h : is_valid_name n = true) :
    ∃ d, Dimension.new_unlimited_size n s = Except.ok d ∧ d.name = n ∧ d.size' = s ∧
      d.dim_type = DimensionType.UnlimitedSize ∧ d.is_unlimited = true ∧
      d.is_fixed = false := by
  refine ⟨{ name := n, size := DimensionSize.Unlimited s }, ?_, rfl, rfl, rfl, rfl, rfl⟩
  simp [Dimension.new_unlimited_size, Dimension.check_dim_name, h, DimensionSize.new]

/-- Witness for C5 at the name `"dim_1"` and size 10. -/
theorem new_unlimited_size_ok_witness :
    is_valid_name [0x64, 0x69, 0x6D, 0x5F, 0x31] = true ∧
    ∃ d, Dimension.new_unlimited_size [0x64, 0x69, 0x6D, 0x5F, 0x31] 10 = Except.ok d ∧
      d.name = [0x64, 0x69, 0x6D, 0x5F, 0x31] ∧ d.size' = 10 ∧
      d.dim_type = DimensionType.UnlimitedSize ∧ d.is_unlimited = true ∧
      d.is_fixed = false :=
  ⟨by decide, new_unlimited_size_ok [0x64, 0x69, 0x6D, 0x5F, 0x31] 10 (by decide)⟩

/-- Claim C6: dimension construction accepts every size including 0 — for
any valid name both constructors succeed at every size and report it back,
in particular at size 0; the size is never a cause of failure. -/
theorem dim_ctor_any_size_ok (n : List Nat) (h : is_valid_name n = true) (s : Nat) :
    (∃ d, Dimension.new_fixed_size n s = Except.ok d ∧ d.size' = s) ∧
    (∃ d, Dimension.new_unlimited_size n s = Except.ok d ∧ d.size' = s) ∧
    (∃ d, Dimension.new_fixed_size n 0 = Except.ok d ∧ d.size' = 0) ∧
    (∃ d, Dimension.new_unlimited_size n 0 = Except.ok d ∧ d.size' = 0) := by
  refine ⟨⟨{ name := n, size := DimensionSize.Fixed s }, ?_, rfl⟩,
    ⟨{ name := n, size := DimensionSize.Unlimited s }, ?_, rfl⟩,
    ⟨{ name := n, size := DimensionSize.Fixed 0 }, ?_, rfl⟩,
    ⟨{ name := n, size := DimensionSize.Unlimited 0 }, ?_, rfl⟩⟩ <;>
  simp [Dimension.new_fixed_size, Dimension.new_unlimited_size, Dimension.check_dim_name,
    h, DimensionSize.new]

/-- Witness for C6 at the name `"t"` and sizes 3 and 0. -/
theorem dim_ctor_any_size_ok_witness :
    is_valid_name [0x74] = true ∧
    ((∃ d, Dimension.new_fixed_size [0x74] 3 = Except.ok d ∧ d.size' = 3) ∧
     (∃ d, Dimension.new_unlimited_size [0x74] 3 = Except.ok d ∧ d.size' = 3) ∧
     (∃ d, Dimension.new_fixed_size [0x74] 0 = Except.ok d ∧ d.size' = 0) ∧
     (∃ d, Dimension.new_unlimited_size [0x74] 0 = Except.ok d ∧ d.size' = 0)) :=
  ⟨by decide, dim_ctor_any_size_ok [0x74] (by decide) 3⟩

/-- Claim C9: for every dimension exactly one of `is_fixed` and
`is_unlimited` is true, and `dim_type` determines both. -/
theorem dim_kind_exclusive (d : Dimension) :
    (d.is_unlimited = true ↔ d.dim_type = DimensionType.UnlimitedSize) ∧
    (d.is_fixed = true ↔ d.dim_type = DimensionType.FixedSize) ∧
    ((d.is_fixed = true ∧ d.is_unlimited = false) ∨
     (d.is_fixed = false ∧ d.is_unlimited = true)) := by
  rcases d with ⟨nm, sz⟩
  cases sz <;>
    simp [Dimension.is_fixed, Dimension.is_unlimited, Dimension.dim_type, DimensionSize.type]

/-- Witness for C9 at a concrete fixed dimension. -/
theorem dim_kind_exclusive_witness :
    ((Dimension.mk [0x61] (DimensionSize.Fixed 4)).is_unlimited = true ↔
      (Dimension.mk [0x61] (DimensionSize.Fixed 4)).dim_type = DimensionType.UnlimitedSize) ∧
    ((Dimension.mk [0x61] (DimensionSize.Fixed 4)).is_fixed = true ↔
      (Dimension.mk [0x61] (DimensionSize.Fixed 4)).dim_type = DimensionType.FixedSize) ∧
    (((Dimension.mk [0x61] (DimensionSize.Fixed 4)).is_fixed = true ∧
      (Dimension.mk [0x61] (DimensionSize.Fixed 4)).is_unlimited = false) ∨
     ((Dimension.mk [0x61] (DimensionSize.Fixed 4)).is_fixed = false ∧
      (Dimension.mk [0x61] (DimensionSize.Fixed 4)).is_unlimited = true)) :=
  dim_kind_exclusive (Dimension.mk [0x61] (DimensionSize.Fixed 4))

/-- Claim C10: two dimensions are equal iff their names are equal and
their sizes agree in both kind and value; in particular a fixed and an
unlimited dimension with the same name and size are unequal. -/
theorem dimension_equality_iff (d1 d2 : Dimension) :
    (d1 = d2 ↔ d1.name = d2.name ∧ d1.dim_type = d2.dim_type ∧ d1.size' = d2.size') ∧
    (∀ n s, Dimension.mk n (DimensionSize.Fixed s) ≠
      Dimension.mk n (DimensionSize.Unlimited s)) := by
  constructor
  · constructor
    · rintro rfl
      exact ⟨rfl, rfl, rfl⟩
    · rcases d1 with ⟨n1, s1⟩
      rcases d2 with ⟨n2, s2⟩
      rintro ⟨hn, ht, hs⟩
      cases s1 <;> cases s2 <;>
        simp_all [Dimension.dim_type, DimensionSize.type, Dimension.size', DimensionSize.size]
  · intro n s h
    simp at h

/-- Witness for C10: equal fixed dimensions, and the fixed/unlimited pair
of the same name and size that is not equal. -/
theorem dimension_equality_iff_witness :
    (Dimension.mk [0x61] (DimensionSize.Fixed 180) =
        Dimension.mk [0x61] (DimensionSize.Fixed 180) ↔
      (Dimension.mk [0x61] (DimensionSize.Fixed 180)).name =
          (Dimension.mk [0x61] (DimensionSize.Fixed 180)).name ∧
        (Dimension.mk [0x61] (DimensionSize.Fixed 180)).dim_type =
          (Dimension.mk [0x61] (DimensionSize.Fixed 180)).dim_type ∧
        (Dimension.mk [0x61] (DimensionSize.Fixed 180)).size' =
          (Dimension.mk [0x61] (DimensionSize.Fixed 180)).size') ∧
    Dimension.mk [0x61] (DimensionSize.Fixed 180) ≠
      Dimension.mk [0x61] (DimensionSize.Unlimited 180) :=
  ⟨(dimension_equality_iff (Dimension.mk [0x61] (DimensionSize.Fixed 180))
      (Dimension.mk [0x61] (DimensionSize.Fixed 180))).1,
   (dimension_equality_iff (Dimension.mk [0x61] (DimensionSize.Fixed 180))
      (Dimension.mk [0x61] (DimensionSize.Fixed 180))).2 [0x61] 180⟩

/-- Claim C7: the model's dimension mutators are transactional — whenever
`add_fixed_dim` or `set_unlimited_dim` fails, the data set is unchanged;
in particular name validation precedes any state creation, so a failed
construction yields no dimension (the constructors return only the
`InvalidName` error in that case). -/
theorem mutators_transactional (ds : DataSet) (n : List Nat) (s : Nat) :
    (∀ e, (ds.add_fixed_dim n s).1 = Except.error e → (ds.add_fixed_dim n s).2 = ds) ∧
    (∀ e, (ds.set_unlimited_dim n s).1 = Except.error e →
      (ds.set_unlimited_dim n s).2 = ds) ∧
    (is_valid_name n = false →
      Dimension.new_fixed_size n s =
          Except.error (InvalidDataSet.DimensionNameNotValid n) ∧
      Dimension.new_unlimited_size n s =
          Except.error (InvalidDataSet.DimensionNameNotValid n)) := by
  refine ⟨?_, ?_, ?_⟩
  · intro e he
    unfold DataSet.add_fixed_dim at he ⊢
    cases hnf : Dimension.new_fixed_size n s with
    | error e' => rfl
    | ok d =>
      by_cases hc : ds.dims.any (fun d0 => decide (d0.name = n)) = true
      · simp [hc]
      · rw [hnf] at he
        simp [hc] at he
  · intro e he
    unfold DataSet.set_unlimited_dim at he ⊢
    cases hnf : Dimension.new_unlimited_size n s with
    | error e' => rfl
    | ok d =>
      by_cases hu : ds.dims.any (fun d0 => d0.is_unlimited) = true
      · simp [hu]
      · by_cases hc : ds.dims.any (fun d0 => decide (d0.name = n)) = true
        · simp [hu, hc]
        · rw [hnf] at he
          simp [hu, hc] at he
  · intro hbad
    constructor <;>
      simp [Dimension.new_fixed_size, Dimension.new_unlimited_size,
        Dimension.check_dim_name, hbad]

/-- Witness for C7: the invalid name `"1"` on the empty data set leaves it
unchanged and produces only the `InvalidName` error. -/
theorem mutators_transactional_witness :
    ((DataSet.mk [] [] []).add_fixed_dim [0x31] 5).2 = DataSet.mk [] [] [] ∧
    ((DataSet.mk [] [] []).set_unlimited_dim [0x31] 5).2 = DataSet.mk [] [] [] ∧
    Dimension.new_fixed_size [0x31] 5 =
      Except.error (InvalidDataSet.DimensionNameNotValid [0x31]) :=
  ⟨(mutators_transactional (DataSet.mk [] [] []) [0x31] 5).1
      (InvalidDataSet.DimensionNameNotValid [0x31]) (by rfl),
   (mutators_transactional (DataSet.mk [] [] []) [0x31] 5).2.1
      (InvalidDataSet.DimensionNameNotValid [0x31]) (by rfl),
   ((mutators_transactional (DataSet.mk [] [] []) [0x31] 5).2.2 (by decide)).1⟩

/-- Claim C8: only an unlimited dimension's size is mutable after
construction — the model's size update fails on a fixed dimension, whose
`size()` stays the construction-time value, and succeeds on an unlimited
dimension, updating the interior cell while preserving the name. -/
theorem only_unlimited_size_mutable (d : Dimension) (s : Nat) :
    (d.is_fixed = true → d.set_size s = none) ∧
    (d.is_unlimited = true →
      ∃ d', d.set_size s = some d' ∧ d'.name = d.name ∧ d'.size' = s ∧
        d'.is_unlimited = true) ∧
    (∀ n s0, Dimension.new_fixed_size n s0 = Except.ok d →
      d.size' = s0 ∧ d.is_fixed = true) := by
  refine ⟨?_, ?_, ?_⟩
  · intro hfix
    rcases d with ⟨nm, sz⟩
    cases sz with
    | Unlimited m =>
      simp [Dimension.is_fixed, Dimension.dim_type, DimensionSize.type] at hfix
    | Fixed m => rfl
  · intro hu
    rcases d with ⟨nm, sz⟩
    cases sz with
    | Unlimited m =>
      exact ⟨{ name := nm, size := DimensionSize.Unlimited s }, rfl, rfl, rfl, rfl⟩
    | Fixed m =>
      simp [Dimension.is_unlimited, Dimension.dim_type, DimensionSize.type] at hu
  · intro n s0 hok
    unfold Dimension.new_fixed_size Dimension.check_dim_name at hok
    cases hvn : is_valid_name n with
    | false => rw [hvn] at hok; cases hok
    | true =>
      rw [hvn] at hok
      have hd : d = { name := n, size := DimensionSize.new s0 DimensionType.FixedSize } :=
        (Except.ok.injEq _ _).mp hok.symm
      subst hd
      exact ⟨rfl, rfl⟩

/-- Witness for C8: a fixed dimension rejects the size update; an
unlimited one accepts it; a freshly constructed fixed dimension carries its
construction-time size. -/
theorem only_unlimited_size_mutable_witness :
    ((Dimension.mk [0x66] (DimensionSize.Fixed 4)).set_size 9 = none) ∧
    (∃ d', (Dimension.mk [0x75] (DimensionSize.Unlimited 4)).set_size 9 = some d' ∧
      d'.name = (Dimension.mk [0x75] (DimensionSize.Unlimited 4)).name ∧
      d'.size' = 9 ∧ d'.is_unlimited = true) :=
  ⟨(only_unlimited_size_mutable (Dimension.mk [0x66] (DimensionSize.Fixed 4)) 9).1
      (by decide),
   (only_unlimited_size_mutable (Dimension.mk [0x75] (DimensionSize.Unlimited 4)) 9).2.1
      (by decide)⟩

set_option maxRecDepth 4000 in
/-- Counterexample to claim C1 as stated: the data set with the single
fixed dimension `"x"` of size 0 is valid and the classic version is
acceptable by the planner, but the header encoding writes its size field
as 0 — the on-disk marker of the unlimited dimension — so reading the
written bytes back yields a data set whose dimension is unlimited, not the
original one. -/
theorem write_read_roundtrip_cex :
    DataSet.valid
        (DataSet.mk [Dimension.mk [0x78] (DimensionSize.Fixed 0)] [] []) = true ∧
    acceptableVersion
        (DataSet.mk [Dimension.mk [0x78] (DimensionSize.Fixed 0)] [] [])
        Version.classic = true ∧
    parseHeader (writeHeader
        (DataSet.mk [Dimension.mk [0x78] (DimensionSize.Fixed 0)] [] [])
        Version.classic) =
      some (DataSet.mk [Dimension.mk [0x78] (DimensionSize.Unlimited 0)] [] [], []) ∧
    DataSet.mk [Dimension.mk [0x78] (DimensionSize.Unlimited 0)] [] [] ≠
      DataSet.mk [Dimension.mk [0x78] (DimensionSize.Fixed 0)] [] [] := by
  refine ⟨by decide, by decide, by decide, by decide⟩

/-- Claim C1 (amended): for every valid data set whose fixed dimensions
all have size at least 1 and every version acceptable by the planner,
parsing the written header materializes the identical data set —
dimension, variable and attribute ordering, names, types and sizes
included — whatever payload bytes follow the header. -/
theorem write_read_roundtrip (ds : DataSet) (V : Version) (tail : List Nat)
    (hv : ds.valid = true) (_hacc : acceptableVersion ds V = true)
    (hfz : ds.fixedDimsPositive = true) :
    parseHeader (writeHeader ds V ++ tail) = some (ds, tail) :=
  parseHeader_writeHeader ds V tail hv hfz

set_option maxRecDepth 4000 in
/-- Witness for C1 (amended) at a concrete data set with a fixed and an
unlimited dimension, a global text attribute and one record variable with
an `i16` attribute, written in the classic format. -/
theorem write_read_roundtrip_witness :
    DataSet.valid
        (DataSet.mk
          [Dimension.mk [0x6C, 0x61, 0x74] (DimensionSize.Fixed 3),
           Dimension.mk [0x72, 0x65, 0x63] (DimensionSize.Unlimited 2)]
          [Attribute.mk [0x74] NcType.char [0x68, 0x69]]
          [Variable.mk [0x76] [1, 0] [Attribute.mk [0x61] NcType.i16 [5, 4464]]
            NcType.f32]) = true ∧
    acceptableVersion
        (DataSet.mk
          [Dimension.mk [0x6C, 0x61, 0x74] (DimensionSize.Fixed 3),
           Dimension.mk [0x72, 0x65, 0x63] (DimensionSize.Unlimited 2)]
          [Attribute.mk [0x74] NcType.char [0x68, 0x69]]
          [Variable.mk [0x76] [1, 0] [Attribute.mk [0x61] NcType.i16 [5, 4464]]
            NcType.f32]) Version.classic = true ∧
    DataSet.fixedDimsPositive
        (DataSet.mk
          [Dimension.mk [0x6C, 0x61, 0x74] (DimensionSize.Fixed 3),
           Dimension.mk [0x72, 0x65, 0x63] (DimensionSize.Unlimited 2)]
          [Attribute.mk [0x74] NcType.char [0x68, 0x69]]
          [Variable.mk [0x76] [1, 0] [Attribute.mk [0x61] NcType.i16 [5, 4464]]
            NcType.f32]) = true ∧
    parseHeader (writeHeader
        (DataSet.mk
          [Dimension.mk [0x6C, 0x61, 0x74] (DimensionSize.Fixed 3),
           Dimension.mk [0x72, 0x65, 0x63] (DimensionSize.Unlimited 2)]
          [Attribute.mk [0x74] NcType.char [0x68, 0x69]]
          [Variable.mk [0x76] [1, 0] [Attribute.mk [0x61] NcType.i16 [5, 4464]]
            NcType.f32]) Version.classic ++ [9, 9, 9]) =
      some (DataSet.mk
          [Dimension.mk [0x6C, 0x61, 0x74] (DimensionSize.Fixed 3),
           Dimension.mk [0x72, 0x65, 0x63] (DimensionSize.Unlimited 2)]
          [Attribute.mk [0x74] NcType.char [0x68, 0x69]]
          [Variable.mk [0x76] [1, 0] [Attribute.mk [0x61] NcType.i16 [5, 4464]]
            NcType.f32], [9, 9, 9]) :=
  ⟨by decide, by decide, by decide,
   write_read_roundtrip
     (DataSet.mk
       [Dimension.mk [0x6C, 0x61, 0x74] (DimensionSize.Fixed 3),
        Dimension.mk [0x72, 0x65, 0x63] (DimensionSize.Unlimited 2)]
       [Attribute.mk [0x74] NcType.char [0x68, 0x69]]
       [Variable.mk [0x76] [1, 0] [Attribute.mk [0x61] NcType.i16 [5, 4464]]
         NcType.f32]) Version.classic [9, 9, 9] (by decide) (by decide) (by decide)⟩

end Netcdf3
